import Mathlib

/-!
Verification of the poll engine and the meeting-date parsing of the Booq
Club bot.  The source file src/index.js contains two revisions of the
program; the poll engine and the date parser live in the second revision
(lines 952-2265), which is the code embedded here.

Embedding conventions:
* JavaScript numbers that hold star ratings are embedded as `Rat` (all
  values in play are decimal fractions).
* A JavaScript `Map` (the `votes` field of a poll document) is embedded as
  an insertion-ordered association list `List (String × Rat)`; `Map.set`
  replaces the value of the first (and, for a real `Map`, only) entry with
  the given key and otherwise appends at the end.
* The MongoDB `Poll` collection is embedded as a `List PollDoc`;
  `findOne`, `deleteOne` and `save` scan for the first matching document.
* Instants (`Date.now()`, `endTime`) are milliseconds since epoch as `Nat`.
* Discord API calls (`channels.fetch`, `messages.fetch`, `channel.send`)
  are external effects; their outcomes are supplied by a `DiscordEnv`.
-/

namespace BooqClub

/-- A star-rating option offered by a poll: a button label together with
the numeric star value encoded in the button custom id
(src/index.js lines 975-985). -/
structure PollOption where
  label : String
  value : Rat
deriving DecidableEq

/-- The fixed option list `pollOptions` of src/index.js lines 975-985.
The list starts at one star; there is no zero-star option.  The
JavaScript decimals 1.5, 2.5, 3.5, 4.5 are written as the rationals
`mkRat 3 2`, `mkRat 5 2`, `mkRat 7 2`, `mkRat 9 2`. -/
def pollOptions : List PollOption :=
  [ ⟨"1 star", 1⟩, ⟨"1.5 stars", mkRat 3 2⟩, ⟨"2 stars", 2⟩,
    ⟨"2.5 stars", mkRat 5 2⟩, ⟨"3 stars", 3⟩, ⟨"3.5 stars", mkRat 7 2⟩,
    ⟨"4 stars", 4⟩, ⟨"4.5 stars", mkRat 9 2⟩, ⟨"5 stars", 5⟩ ]

/-- `votes.get(u)` on the embedded `Map`: value of the first entry whose
key is `u`. -/
def lookupVote : List (String × Rat) → String → Option Rat
  | [], _ => none
  | e :: es, u => if e.1 = u then some e.2 else lookupVote es u

/-- `votes.set(u, r)` on the embedded `Map`: replace the value of the
first entry keyed `u`, else append `(u, r)` at the end (JavaScript `Map`
insertion-order semantics). -/
def mapSet : List (String × Rat) → String → Rat → List (String × Rat)
  | [], u, r => [(u, r)]
  | e :: es, u, r => if e.1 = u then (u, r) :: es else e :: mapSet es u r

/-- `votes.has(u)` on the embedded `Map`. -/
def hasKey : List (String × Rat) → String → Bool
  | [], _ => false
  | e :: es, u => if e.1 = u then true else hasKey es u

/-- Number of entries of the embedded `Map` keyed `u` (a real `Map` always
has at most one). -/
def countKey : List (String × Rat) → String → Nat
  | [], _ => 0
  | e :: es, u => (if e.1 = u then 1 else 0) + countKey es u

/-- All entries of the embedded `Map` except those keyed `u`. -/
def removeKey : List (String × Rat) → String → List (String × Rat)
  | [], _ => []
  | e :: es, u => if e.1 = u then removeKey es u else e :: removeKey es u

/-- The key-uniqueness invariant a JavaScript `Map` maintains: no key
occurs twice. -/
def nodupKeys : List (String × Rat) → Bool
  | [] => true
  | e :: es => if hasKey es e.1 then false else nodupKeys es

/-- Sum of all stored rating values. -/
def sumVals : List (String × Rat) → Rat
  | [] => 0
  | e :: es => e.2 + sumVals es

/-- Number of entries whose stored value is `v` (the per-option breakdown
of the result loop counts these, src/index.js lines 1016-1023). -/
def countVal : List (String × Rat) → Rat → Nat
  | [], _ => 0
  | e :: es, v => (if e.2 = v then 1 else 0) + countVal es v

/-- A document of the MongoDB `Poll` collection (`PollSchema`,
src/index.js lines 1065-1077).  The `optionsData` field only feeds
button construction at poll creation and is read by no resolution or
vote path, so it is not modelled.  `endTime` is milliseconds since
epoch. -/
structure PollDoc where
  messageId : String
  channelId : String
  guildId : String
  title : String
  endTime : Nat
  votes : List (String × Rat)
deriving DecidableEq

/-- `Poll.findOne({ messageId })`: the first stored document carrying the
message id (src/index.js line 2177). -/
def findPoll : List PollDoc → String → Option PollDoc
  | [], _ => none
  | p :: ps, mid => if p.messageId = mid then some p else findPoll ps mid

/-- `Poll.findOne({ channelId })`: the first stored document living in the
channel (src/index.js line 2139). -/
def findPollByChannel : List PollDoc → String → Option PollDoc
  | [], _ => none
  | p :: ps, cid => if p.channelId = cid then some p else findPollByChannel ps cid

/-- `Poll.deleteOne({ messageId })` (src/index.js lines 994, 1001, 1043):
remove the first stored document carrying the message id. -/
def deleteOne : List PollDoc → String → List PollDoc
  | [], _ => []
  | p :: ps, mid => if p.messageId = mid then ps else p :: deleteOne ps mid

/-- `poll.save()` on a document fetched from the store: the stored
document with the same message id is replaced by the mutated one. -/
def savePoll : List PollDoc → PollDoc → List PollDoc
  | [], _ => []
  | q :: qs, p => if q.messageId = p.messageId then p :: qs else q :: savePoll qs p

/-- The aggregate a poll resolution computes (locals of `endPoll`,
src/index.js lines 1005-1033): total score, number of votes, per-label
breakdown, and the reported average — `none` embeds the
"No votes were cast." sentinel branch. -/
structure Aggregate where
  totalScore : Rat
  totalVotes : Nat
  counts : List (String × Nat)
  average : Option Rat
deriving DecidableEq

/-- The tally loop of `endPoll` (src/index.js lines 1006-1018):
`totalScore += ratingValue; totalVotes++` over the vote entries. -/
def tallyLoop : List (String × Rat) → Rat × Nat → Rat × Nat
  | [], acc => acc
  | e :: es, acc => tallyLoop es (acc.1 + e.2, acc.2 + 1)

/-- The aggregate computation of `endPoll` (src/index.js lines
1005-1033).  Per-label counts follow the loop's
`pollOptions.find(opt => opt.value === ratingValue)` lookup: an entry
whose value is not in the scale raises `totalScore`/`totalVotes` but no
label count.  The average is computed only in the `totalVotes > 0`
branch; the zero-vote branch prints the sentinel instead (embedded as
`none`), so no division by zero is ever evaluated.  The code formats
the computed quotient with `toFixed(2)` purely for display; the
quotient itself is embedded here. -/
def tallyVotes (votes : List (String × Rat)) : Aggregate :=
  let sc := tallyLoop votes (0, 0)
  { totalScore := sc.1
    totalVotes := sc.2
    counts := pollOptions.map (fun opt => (opt.label, countVal votes opt.value))
    average := if 0 < sc.2 then some (sc.1 / (sc.2 : Rat)) else none }

/-- Outcome of a discord.js fetch call: the entity was returned, the call
resolved to nothing (the `if (!channel)` / `if (!message)` guards of
`endPoll`), or the call threw (caught by the surrounding try/catch). -/
inductive FetchResult where
  | found
  | missing
  | raises
deriving DecidableEq

/-- The Discord side effects `endPoll` depends on: the outcome of
`client.channels.fetch`, of `channel.messages.fetch`, and whether
`channel.send` succeeds.  `message.unpin()` failures are swallowed by the
code (`.catch(console.error)`) and need no modelling. -/
structure DiscordEnv where
  chanFetch : String → FetchResult
  msgFetch : String → FetchResult
  sendOk : Bool

/-- Observable outcome of one `endPoll` run: the aggregate it computed
(if control reached the tally loop), the aggregate announcements sent to
the channel, and the store it leaves behind. -/
structure EndPollOut where
  computedAgg : Option Aggregate
  announced : List Aggregate
  store : List PollDoc
deriving DecidableEq

/-- `endPoll(pollData)` (src/index.js lines 988-1048).  The channel is
fetched first: a null result logs and deletes the stored document and
returns; a throw is caught by the try/catch (log only).  Then the poll
message is fetched the same way.  On the happy path the vote tally is
computed, the result embed is sent, the message is unpinned (best
effort) and the document is deleted; if the send throws, the catch skips
the deletion.  Note that `pollData` is the caller's in-memory document:
`endPoll` never re-reads the store, so the tally uses `pollData.votes`
as passed in. -/
def endPoll (env : DiscordEnv) (store : List PollDoc) (pollData : PollDoc) :
    EndPollOut :=
  match env.chanFetch pollData.channelId with
  | .raises => ⟨none, [], store⟩
  | .missing => ⟨none, [], deleteOne store pollData.messageId⟩
  | .found =>
    match env.msgFetch pollData.messageId with
    | .raises => ⟨none, [], store⟩
    | .missing => ⟨none, [], deleteOne store pollData.messageId⟩
    | .found =>
      let agg := tallyVotes pollData.votes
      if env.sendOk then ⟨some agg, [agg], deleteOne store pollData.messageId⟩
      else ⟨some agg, [], store⟩

/-- Reply of the `!endpoll` command handler. -/
inductive EndPollReply where
  | noActivePoll
  | manuallyEnded (title : String)
deriving DecidableEq

/-- The `case "endpoll"` branch of the message handler (src/index.js
lines 2136-2153): look the poll up by the invoking channel; if none is
stored reply so; otherwise run `endPoll` on the fetched document. -/
def endpollCommand (env : DiscordEnv) (store : List PollDoc) (cid : String) :
    EndPollReply × EndPollOut :=
  match findPollByChannel store cid with
  | none => (.noActivePoll, ⟨none, [], store⟩)
  | some activePoll => (.manuallyEnded activePoll.title, endPoll env store activePoll)

/-- Ephemeral reply of the vote-button interaction handler
(src/index.js lines 2162-2212). -/
inductive VoteReply where
  | ignored
  | invalidFormat
  | pollGone
  | pollEnded
  | castError
  | alreadyVoted (r : Rat)
  | changed (r : Rat)
  | recorded (r : Rat)
deriving DecidableEq

/-- Leading-match check on character lists, for
`customId.startsWith("poll_")`. -/
def charsLe : List Char → List Char → Bool
  | [], _ => true
  | _ :: _, [] => false
  | a :: as, b :: bs => if a = b then charsLe as bs else false

/-- `String.prototype.startsWith`. -/
def jsStartsWith (s pat : String) : Bool :=
  charsLe pat.data s.data

/-- `String.prototype.split` with a one-character separator, on character
lists. -/
def splitChars (sep : Char) : List Char → List (List Char)
  | [] => [[]]
  | c :: cs =>
    if c = sep then [] :: splitChars sep cs
    else
      match splitChars sep cs with
      | [] => [[c]]
      | p :: ps => (c :: p) :: ps

/-- `customId.split('_')`. -/
def jsSplit (s : String) (sep : Char) : List String :=
  (splitChars sep s.data).map (fun cs => String.mk cs)

/-- Accumulate decimal digits into a natural number. -/
def digitsToNat : List Char → Nat → Nat
  | [], acc => acc
  | c :: cs, acc => digitsToNat cs (acc * 10 + (c.toNat - 48))

/-- JavaScript `parseFloat` on the plain decimal numerals this program
produces and consumes (an optional sign, digits, an optional fraction;
trailing non-numeric text is ignored as parseFloat does).  `none` embeds
the NaN result for inputs with no leading numeral. -/
def jsParseFloat (s : String) : Option Rat :=
  let cs := s.data.dropWhile (fun c => c = ' ')
  let sgn : Int := match cs with
    | '-' :: _ => -1
    | _ => 1
  let cs2 := match cs with
    | '-' :: rest => rest
    | '+' :: rest => rest
    | _ => cs
  let intPart := cs2.takeWhile Char.isDigit
  let rest := cs2.dropWhile Char.isDigit
  let fracPart := match rest with
    | '.' :: r2 => r2.takeWhile Char.isDigit
    | _ => []
  if intPart.isEmpty && fracPart.isEmpty then none
  else
    some (mkRat
      (sgn * Int.ofNat (digitsToNat intPart 0 * 10 ^ fracPart.length +
        digitsToNat fracPart 0))
      (10 ^ fracPart.length))

/-- Core of the vote-button interaction handler after the custom id was
decoded (src/index.js lines 2174-2205): look the poll up by the message
the button sits on (`pollGone` embeds the poll-not-found ephemeral
reply), refuse expired polls, then record or change the vote and persist
it.  `rating = none` embeds the NaN result of `parseFloat` on a corrupt
custom id: the code then reaches `poll.save()`, whose number cast
rejects NaN, landing in the catch with the error reply and no store
change — embedded as the early `castError` branch. -/
def castVoteCore (store : List PollDoc) (mid u : String) (now : Nat)
    (rating : Option Rat) : VoteReply × List PollDoc :=
  match findPoll store mid with
  | none => (.pollGone, store)
  | some poll =>
    if poll.endTime ≤ now then (.pollEnded, store)
    else
      match rating with
      | none => (.castError, store)
      | some r =>
        match lookupVote poll.votes u with
        | some old =>
          if old = r then (.alreadyVoted r, store)
          else (.changed r, savePoll store { poll with votes := mapSet poll.votes u r })
        | none => (.recorded r, savePoll store { poll with votes := mapSet poll.votes u r })

/-- The vote-button interaction handler (src/index.js lines 2162-2212):
ignore custom ids that do not start with `poll_`, reject ids that do not
split into exactly three underscore-separated parts, then parse the
third part with `parseFloat` and run the core.  `mid` is the id of the
message the button sits on (`interaction.message.id`). -/
def handleVote (store : List PollDoc) (mid u customId : String) (now : Nat) :
    VoteReply × List PollDoc :=
  if jsStartsWith customId "poll_" then
    let parts := jsSplit customId '_'
    if parts.length ≠ 3 then (.invalidFormat, store)
    else castVoteCore store mid u now (jsParseFloat (parts.getD 2 ""))
  else (.ignored, store)

/-- What `loadActivePolls` decides for one stored poll (src/index.js
lines 1051-1063): an already-expired poll is resolved immediately
(`await endPoll(poll)`); a live one gets `setTimeout(() => endPoll(poll),
timeRemaining)` — the callback closes over the document loaded at
startup, recorded here as the `snapshot` payload. -/
inductive RecoveryAction where
  | resolveNow (poll : PollDoc)
  | armTimer (delayMs : Nat) (snapshot : PollDoc)
deriving DecidableEq

/-- `loadActivePolls()` (src/index.js lines 1051-1063): `Poll.find({})`
returns every stored document (resolution deletes documents, so every
stored poll is an active one); each is either resolved now or re-armed
for `endTime - now` milliseconds. -/
def loadActivePolls (now : Nat) (store : List PollDoc) : List RecoveryAction :=
  store.map (fun poll =>
    if poll.endTime ≤ now then .resolveNow poll
    else .armTimer (poll.endTime - now) poll)

/-- Number of stored documents carrying a message id (the spec's
"exactly one poll per anchor-message id" invariant bounds this by 1). -/
def countMsg : List PollDoc → String → Nat
  | [], _ => 0
  | p :: ps, mid => (if p.messageId = mid then 1 else 0) + countMsg ps mid

/-- A sequence of vote-button interactions by one voter: each element is
the interaction instant paired with the decoded star value, applied in
order through the handler core. -/
def castSeq (store : List PollDoc) (mid u : String)
    (casts : List (Nat × Rat)) : List PollDoc :=
  casts.foldl (fun st c => (castVoteCore st mid u c.1 (some c.2)).2) store

/-- The corresponding iterated `Map.set` on a votes map. -/
def voteFold (vs : List (String × Rat)) (u : String)
    (casts : List (Nat × Rat)) : List (String × Rat) :=
  casts.foldl (fun acc c => mapSet acc u c.2) vs

/-- A wall-clock instant in the fixed target timezone (Europe/London),
to minute precision: the code paths modelled here always zero seconds
and milliseconds.  Comparison of two instants in the same zone is
lexicographic on these fields (DST transitions are not modelled). -/
structure DT where
  year : Nat
  month : Nat
  day : Nat
  hour : Nat
  minute : Nat
deriving DecidableEq

/-- Luxon `<` on two instants of the same zone: lexicographic comparison
of the wall-clock fields. -/
def dtLt (a b : DT) : Bool :=
  if a.year < b.year then true
  else if b.year < a.year then false
  else if a.month < b.month then true
  else if b.month < a.month then false
  else if a.day < b.day then true
  else if b.day < a.day then false
  else if a.hour < b.hour then true
  else if b.hour < a.hour then false
  else decide (a.minute < b.minute)

/-- The tail of `parseMeetingDateTime` (src/index.js lines 1442-1489),
the part every claim about date parsing cites.  The two parser stages it
chains are external library calls and enter as parameters:
`structuredRes` is the outcome of the prioritized `DateTime.fromFormat`
loop over the explicit format list (`none` when no format matched), and
`naturalRes` the outcome of `DateTime.fromJSDate(new Date(combined))`
(`none` when invalid).  `hasTimeStr` embeds the `timeStr` argument's
truthiness; `hasYear` the regex test for an explicit 4-digit year
(`/\b20\d{2}\b/`).  The pipeline: take the structured result, else the
natural one, else return invalid (`none`); default the time of day to
19:00 when no time argument was supplied; finally, if the result lies
in the past and no explicit year was typed, roll it forward one year. -/
def parseMeetingDateTime (structuredRes naturalRes : Option DT)
    (hasTimeStr hasYear : Bool) (now : DT) : Option DT :=
  let parsed : Option DT :=
    match structuredRes with
    | some d => some d
    | none => naturalRes
  match parsed with
  | none => none
  | some d0 =>
    let d1 := if hasTimeStr then d0 else { d0 with hour := 19, minute := 0 }
    if dtLt d1 now && !hasYear then some { d1 with year := d1.year + 1 }
    else some d1

theorem tallyLoop_spec (votes : List (String × Rat)) (acc : Rat × Nat) :
    tallyLoop votes acc = (acc.1 + sumVals votes, acc.2 + votes.length) := by
  induction votes generalizing acc with
  | nil => simp [tallyLoop, sumVals]
  | cons e es ih =>
      simp only [tallyLoop, sumVals, List.length_cons, ih, Prod.mk.injEq]
      exact ⟨by ring, by omega⟩

/-- Claim C6 counterexample: the value 0 is not among the selectable
options — the scale claimed in the spec ({0, 1, 1.5, ..., 5}) does not
match `pollOptions`, which has no zero-star option. -/
theorem c6_counterexample : (0 : Rat) ∉ pollOptions.map (fun o => o.value) := by
  decide

/-- Claim C6 (amended): the fixed rating scale presented as selectable
options is exactly the ordered set {1, 1.5, 2, 2.5, 3, 3.5, 4, 4.5, 5}
— nine options, with no 0. -/
theorem c6_amended :
    pollOptions.map (fun o => o.value) =
      [1, mkRat 3 2, 2, mkRat 5 2, 3, mkRat 7 2, 4, mkRat 9 2, 5] := by
  decide

/-- Claim C9: resolving a poll with an empty votes map reports the
average as the no-votes sentinel (`none`) rather than a numeric average
— the division lives only in the positive branch — and with at least one
vote the reported average is the sum of the vote values divided by the
number of voters. -/
theorem c9_average :
    (∀ votes : List (String × Rat), ((tallyVotes votes).average = none ↔ votes = [])) ∧
    (∀ votes : List (String × Rat), votes ≠ [] →
      (tallyVotes votes).average = some (sumVals votes / (votes.length : Rat))) := by
  constructor
  · intro votes
    by_cases h : votes = []
    · simp [h, tallyVotes, tallyLoop]
    · have hlen : 0 < votes.length := List.length_pos.mpr h
      simp [tallyVotes, tallyLoop_spec, hlen, h]
  · intro votes h
    have hlen : 0 < votes.length := List.length_pos.mpr h
    simp [tallyVotes, tallyLoop_spec, hlen]

/-- Claim C9 witness: the theorem applied to the empty map and to a
concrete two-voter map, whose average is 9/2. -/
theorem c9_average_witness :
    (tallyVotes []).average = none ∧
    (tallyVotes [("a", 4), ("b", 5)]).average = some (9 / 2) := by
  constructor
  · exact (c9_average.1 []).mpr rfl
  · have h := c9_average.2 [("a", 4), ("b", 5)] (by decide)
    rw [h]
    norm_num [sumVals]

theorem lookupVote_mapSet_self (vs : List (String × Rat)) (u : String) (r : Rat) :
    lookupVote (mapSet vs u r) u = some r := by
  induction vs with
  | nil => simp [mapSet, lookupVote]
  | cons e es ih =>
      by_cases h : e.1 = u
      · simp [mapSet, h, lookupVote]
      · simp [mapSet, h, lookupVote, ih]

theorem mapSet_eq_of_lookupVote (vs : List (String × Rat)) (u : String) (r : Rat)
    (h : lookupVote vs u = some r) : mapSet vs u r = vs := by
  induction vs with
  | nil => simp [lookupVote] at h
  | cons e es ih =>
      obtain ⟨k, v⟩ := e
      by_cases he : k = u
      · subst he
        simp [lookupVote] at h
        subst h
        simp [mapSet]
      · simp [lookupVote, he] at h
        simp [mapSet, he, ih h]

theorem hasKey_mapSet (vs : List (String × Rat)) (u x : String) (r : Rat) :
    hasKey (mapSet vs u r) x = (hasKey vs x || decide (u = x)) := by
  induction vs with
  | nil => simp [mapSet, hasKey]
  | cons e es ih =>
      by_cases he : e.1 = u
      · by_cases hx : u = x
        · simp [mapSet, he, hasKey, hx, he.trans hx]
        · have hex : ¬ (e.1 = x) := by rw [he]; exact hx
          simp [mapSet, he, hasKey, hx, hex]
      · by_cases hex : e.1 = x
        · have hxu : ¬ (x = u) := fun hh => he (hex.trans hh)
          simp [mapSet, he, hasKey, hex, hxu]
        · simp [mapSet, he, hasKey, hex, ih]

theorem nodupKeys_mapSet (vs : List (String × Rat)) (u : String) (r : Rat)
    (h : nodupKeys vs = true) : nodupKeys (mapSet vs u r) = true := by
  induction vs with
  | nil => simp [mapSet, nodupKeys, hasKey]
  | cons e es ih =>
      cases hk : hasKey es e.1 with
      | true => simp [nodupKeys, hk] at h
      | false =>
          simp only [nodupKeys, hk] at h
          simp only [Bool.false_eq_true, if_false] at h
          by_cases he : e.1 = u
          · have hku : hasKey es u = false := by rw [← he]; exact hk
            simp [mapSet, he, nodupKeys, hku, h]
          · have hd : decide (u = e.1) = false := by
              simp
              exact fun hh => he hh.symm
            simp [mapSet, he, nodupKeys, hasKey_mapSet, hk, hd, ih h]

theorem countKey_eq_zero (vs : List (String × Rat)) (u : String)
    (h : hasKey vs u = false) : countKey vs u = 0 := by
  induction vs with
  | nil => simp [countKey]
  | cons e es ih =>
      by_cases he : e.1 = u
      · simp [hasKey, he] at h
      · simp only [hasKey, he, if_false] at h
        simp [countKey, he, ih h]

theorem countKey_le_one (vs : List (String × Rat)) (u : String)
    (h : nodupKeys vs = true) : countKey vs u ≤ 1 := by
  induction vs with
  | nil => simp [countKey]
  | cons e es ih =>
      cases hk : hasKey es e.1 with
      | true => simp [nodupKeys, hk] at h
      | false =>
          simp only [nodupKeys, hk] at h
          simp only [Bool.false_eq_true, if_false] at h
          by_cases he : e.1 = u
          · have h0 : countKey es u = 0 :=
              countKey_eq_zero es u (by rw [← he]; exact hk)
            simp [countKey, he, h0]
          · simp only [countKey, he, if_false]
            simpa using ih h

theorem removeKey_mapSet (vs : List (String × Rat)) (u : String) (r : Rat) :
    removeKey (mapSet vs u r) u = removeKey vs u := by
  induction vs with
  | nil => simp [mapSet, removeKey]
  | cons e es ih =>
      by_cases he : e.1 = u
      · simp [mapSet, he, removeKey]
      · simp [mapSet, he, removeKey, ih]

theorem removeKey_of_hasKey_false (vs : List (String × Rat)) (u : String)
    (h : hasKey vs u = false) : removeKey vs u = vs := by
  induction vs with
  | nil => simp [removeKey]
  | cons e es ih =>
      by_cases he : e.1 = u
      · simp [hasKey, he] at h
      · simp only [hasKey, he, if_false] at h
        simp [removeKey, he, ih h]

theorem sumVals_mapSet (vs : List (String × Rat)) (u : String) (r : Rat)
    (h : nodupKeys vs = true) :
    sumVals (mapSet vs u r) = sumVals (removeKey vs u) + r := by
  induction vs with
  | nil => simp [mapSet, removeKey, sumVals]
  | cons e es ih =>
      cases hk : hasKey es e.1 with
      | true => simp [nodupKeys, hk] at h
      | false =>
          simp only [nodupKeys, hk] at h
          simp only [Bool.false_eq_true, if_false] at h
          by_cases he : e.1 = u
          · have hes : removeKey es u = es :=
              removeKey_of_hasKey_false es u (by rw [← he]; exact hk)
            simp [mapSet, he, sumVals, removeKey, hes]
            ring
          · simp [mapSet, he, sumVals, removeKey, ih h]
            ring

theorem tallyVotes_totalScore (vs : List (String × Rat)) :
    (tallyVotes vs).totalScore = sumVals vs := by
  simp [tallyVotes, tallyLoop_spec]

theorem castVoteCore_single (p : PollDoc) (u : String) (now : Nat) (r : Rat)
    (hact : now < p.endTime) :
    (castVoteCore [p] p.messageId u now (some r)).2 =
      [{ p with votes := mapSet p.votes u r }] := by
  have hfind : findPoll [p] p.messageId = some p := by simp [findPoll]
  have hle : ¬ (p.endTime ≤ now) := by omega
  cases hl : lookupVote p.votes u with
  | none => simp [castVoteCore, hfind, hle, hl, savePoll]
  | some old =>
      by_cases ho : old = r
      · subst ho
        have hms := mapSet_eq_of_lookupVote p.votes u old hl
        simp [castVoteCore, hfind, hle, hl, hms]
      · simp [castVoteCore, hfind, hle, hl, ho, savePoll]

theorem castSeq_spec (p : PollDoc) (u : String) (casts : List (Nat × Rat))
    (hact : ∀ c ∈ casts, c.1 < p.endTime) :
    castSeq [p] p.messageId u casts =
      [{ p with votes := voteFold p.votes u casts }] := by
  induction casts generalizing p with
  | nil => simp [castSeq, voteFold]
  | cons c cs ih =>
      have h1 : c.1 < p.endTime := hact c (by simp)
      have hstep := castVoteCore_single p u c.1 c.2 h1
      have ih2 := ih { p with votes := mapSet p.votes u c.2 }
        (fun d hd => hact d (by simp [hd]))
      simp only [castSeq, List.foldl_cons] at ih2 ⊢
      rw [hstep]
      exact ih2

theorem voteFold_cons (vs : List (String × Rat)) (u : String)
    (c : Nat × Rat) (cs : List (Nat × Rat)) :
    voteFold vs u (c :: cs) = voteFold (mapSet vs u c.2) u cs := rfl

theorem lookupVote_voteFold (u : String) (casts : List (Nat × Rat)) :
    ∀ (vs : List (String × Rat)) (d : Nat × Rat), casts ≠ [] →
      lookupVote (voteFold vs u casts) u = some ((casts.getLastD d).2) := by
  induction casts with
  | nil => intro vs d h; exact absurd rfl h
  | cons c cs ih =>
      intro vs d _
      cases cs with
      | nil => simpa [voteFold, List.getLastD] using lookupVote_mapSet_self vs u c.2
      | cons c2 cs2 =>
          rw [voteFold_cons]
          exact ih (mapSet vs u c.2) c (by simp)

theorem nodupKeys_voteFold (u : String) (casts : List (Nat × Rat)) :
    ∀ vs : List (String × Rat), nodupKeys vs = true →
      nodupKeys (voteFold vs u casts) = true := by
  induction casts with
  | nil => intro vs h; simpa [voteFold] using h
  | cons c cs ih =>
      intro vs h
      rw [voteFold_cons]
      exact ih (mapSet vs u c.2) (nodupKeys_mapSet vs u c.2 h)

theorem removeKey_voteFold (u : String) (casts : List (Nat × Rat)) :
    ∀ vs : List (String × Rat),
      removeKey (voteFold vs u casts) u = removeKey vs u := by
  induction casts with
  | nil => intro vs; rfl
  | cons c cs ih =>
      intro vs
      rw [voteFold_cons, ih (mapSet vs u c.2), removeKey_mapSet]

theorem sumVals_voteFold (u : String) (casts : List (Nat × Rat)) :
    ∀ (vs : List (String × Rat)) (d : Nat × Rat),
      nodupKeys vs = true → casts ≠ [] →
      sumVals (voteFold vs u casts) =
        sumVals (removeKey vs u) + ((casts.getLastD d).2) := by
  induction casts with
  | nil => intro vs d _ h; exact absurd rfl h
  | cons c cs ih =>
      intro vs d hnd _
      cases cs with
      | nil => simpa [voteFold, List.getLastD] using sumVals_mapSet vs u c.2 hnd
      | cons c2 cs2 =>
          rw [voteFold_cons]
          rw [ih (mapSet vs u c.2) c (nodupKeys_mapSet vs u c.2 hnd) (by simp)]
          rw [removeKey_mapSet]
          rfl

/-- Claim C3: over any sequence of vote interactions by one voter on an
active poll, the votes map always holds at most one entry for that
voter, other voters' entries are untouched, the voter's stored value is
the last one cast, and the resolution-time aggregate score counts
exactly that last value for the voter (last-write-wins, no history). -/
theorem c3_last_write_wins (p : PollDoc) (u : String)
    (casts : List (Nat × Rat)) (hne : casts ≠ [])
    (hact : ∀ c ∈ casts, c.1 < p.endTime)
    (hnd : nodupKeys p.votes = true) :
    ∃ q : PollDoc,
      castSeq [p] p.messageId u casts = [q] ∧
      lookupVote q.votes u = some (casts.getLast hne).2 ∧
      removeKey q.votes u = removeKey p.votes u ∧
      nodupKeys q.votes = true ∧
      countKey q.votes u ≤ 1 ∧
      (∀ n : Nat, ∃ qn : PollDoc,
        castSeq [p] p.messageId u (casts.take n) = [qn] ∧
        countKey qn.votes u ≤ 1 ∧ nodupKeys qn.votes = true) ∧
      (tallyVotes q.votes).totalScore =
        sumVals (removeKey p.votes u) + (casts.getLast hne).2 := by
  have hlast : casts.getLastD (0, (0 : Rat)) = casts.getLast hne := by
    rw [List.getLastD_eq_getLast?, List.getLast?_eq_getLast casts hne]
    rfl
  refine ⟨{ p with votes := voteFold p.votes u casts },
    castSeq_spec p u casts hact, ?_, ?_, ?_, ?_, ?_, ?_⟩
  · rw [← hlast]
    exact lookupVote_voteFold u casts p.votes (0, 0) hne
  · exact removeKey_voteFold u casts p.votes
  · exact nodupKeys_voteFold u casts p.votes hnd
  · exact countKey_le_one _ u (nodupKeys_voteFold u casts p.votes hnd)
  · intro n
    refine ⟨{ p with votes := voteFold p.votes u (casts.take n) },
      castSeq_spec p u (casts.take n)
        (fun c hc => hact c (List.take_subset n casts hc)), ?_, ?_⟩
    · exact countKey_le_one _ u (nodupKeys_voteFold u (casts.take n) p.votes hnd)
    · exact nodupKeys_voteFold u (casts.take n) p.votes hnd
  · rw [tallyVotes_totalScore, ← hlast]
    exact sumVals_voteFold u casts p.votes (0, 0) hnd hne

/-- Claim C3 witness: a voter who casts 2 then 5 stars on an active poll
that already holds another voter's 3-star vote ends with a single stored
entry worth 5 stars. -/
theorem c3_last_write_wins_witness :
    ∃ q : PollDoc,
      castSeq [⟨"m", "c", "g", "t", 100, [("w", 3)]⟩] "m" "bob"
        [(10, 2), (20, 5)] = [q] ∧
      lookupVote q.votes "bob" = some 5 := by
  obtain ⟨q, h1, h2, -⟩ :=
    c3_last_write_wins ⟨"m", "c", "g", "t", 100, [("w", 3)]⟩ "bob"
      [(10, 2), (20, 5)] (by decide) (by decide) (by decide)
  exact ⟨q, h1, h2⟩

theorem findPoll_eq_none_of_countMsg_zero (store : List PollDoc) (mid : String)
    (h : countMsg store mid = 0) : findPoll store mid = none := by
  induction store with
  | nil => simp [findPoll]
  | cons p ps ih =>
      by_cases hp : p.messageId = mid
      · simp [countMsg, hp] at h
      · simp only [countMsg, hp, if_false] at h
        simp only [findPoll, hp, if_false]
        exact ih (by omega)

theorem findPoll_deleteOne (store : List PollDoc) (mid : String)
    (h : countMsg store mid ≤ 1) : findPoll (deleteOne store mid) mid = none := by
  induction store with
  | nil => simp [deleteOne, findPoll]
  | cons p ps ih =>
      by_cases hp : p.messageId = mid
      · have h0 : countMsg ps mid = 0 := by
          simp only [countMsg, hp, if_true] at h
          omega
        simp only [deleteOne, hp, if_true]
        exact findPoll_eq_none_of_countMsg_zero ps mid h0
      · have h1 : countMsg ps mid ≤ 1 := by
          simp only [countMsg, hp, if_false] at h
          omega
        simp only [deleteOne, hp, if_false, findPoll]
        exact ih h1

/-- Claim C1 counterexample: with the channel and the poll message still
present (`endPoll` only unpins the message, it never deletes it), two
invocations of `endPoll` on the same poll document — e.g. a manual end
followed by the creation-time countdown firing — send two aggregate
announcements, not exactly one. -/
theorem c1_counterexample :
    ((endPoll ⟨fun _ => .found, fun _ => .found, true⟩
        [⟨"m1", "c1", "g1", "B", 100, [("u", 5)]⟩]
        ⟨"m1", "c1", "g1", "B", 100, [("u", 5)]⟩).announced ++
      (endPoll ⟨fun _ => .found, fun _ => .found, true⟩
        (endPoll ⟨fun _ => .found, fun _ => .found, true⟩
          [⟨"m1", "c1", "g1", "B", 100, [("u", 5)]⟩]
          ⟨"m1", "c1", "g1", "B", 100, [("u", 5)]⟩).store
        ⟨"m1", "c1", "g1", "B", 100, [("u", 5)]⟩).announced).length = 2 := by
  decide

/-- Claim C1 (amended): the first `endPoll` run deletes the stored
document, so every later store-mediated path no-ops — the `!endpoll`
command finds no poll and announces nothing, and the vote handler
replies poll-gone without mutating anything — but `endPoll` itself
carries no idempotence guard (there is no `isActive` flag; terminal
state is deletion), so a second direct invocation on the same in-memory
document announces the results a second time. -/
theorem c1_amended (p : PollDoc) (env : DiscordEnv)
    (hc : env.chanFetch p.channelId = .found)
    (hm : env.msgFetch p.messageId = .found)
    (hs : env.sendOk = true) :
    (endPoll env [p] p).announced.length = 1 ∧
    (endPoll env [p] p).store = [] ∧
    endpollCommand env (endPoll env [p] p).store p.channelId =
      (.noActivePoll, ⟨none, [], []⟩) ∧
    (∀ u now rating,
      castVoteCore (endPoll env [p] p).store p.messageId u now rating =
        (.pollGone, [])) ∧
    (endPoll env (endPoll env [p] p).store p).announced.length = 1 := by
  have hstore : (endPoll env [p] p).store = [] := by
    simp [endPoll, hc, hm, hs, deleteOne]
  refine ⟨?_, hstore, ?_, ?_, ?_⟩
  · simp [endPoll, hc, hm, hs]
  · rw [hstore]
    simp [endpollCommand, findPollByChannel]
  · intro u now rating
    rw [hstore]
    simp [castVoteCore, findPoll]
  · rw [hstore]
    simp [endPoll, hc, hm, hs]

/-- Claim C1 witness: the amended theorem instantiated at a concrete
poll and an environment where channel and message resolve. -/
theorem c1_amended_witness :
    (endPoll ⟨fun _ => .found, fun _ => .found, true⟩
      [⟨"m1", "c1", "g1", "B", 100, [("u", 5)]⟩]
      ⟨"m1", "c1", "g1", "B", 100, [("u", 5)]⟩).store = [] :=
  (c1_amended ⟨"m1", "c1", "g1", "B", 100, [("u", 5)]⟩
    ⟨fun _ => .found, fun _ => .found, true⟩ rfl rfl rfl).2.1

/-- Claim C2 counterexample: when the channel lookup resolves to
nothing, `endPoll` computes no aggregate at all (it returns before the
tally loop), announces nothing, and deletes the poll record — the claim
says the aggregate is still computed and the terminal state persisted. -/
theorem c2_counterexample :
    endPoll ⟨fun _ => .missing, fun _ => .found, true⟩
      [⟨"m2", "c2", "g2", "B", 100, [("u", 5)]⟩]
      ⟨"m2", "c2", "g2", "B", 100, [("u", 5)]⟩ = ⟨none, [], []⟩ := by
  decide

/-- Claim C2 (amended): when the originating channel or message cannot
be located, `endPoll` computes no aggregate and announces nothing; a
null lookup deletes the poll record and returns, a throwing lookup is
caught leaving the store untouched — only the non-fatality part of the
claim holds (the failure is logged, never propagated). -/
theorem c2_amended (p : PollDoc) (store : List PollDoc) (env : DiscordEnv)
    (h : env.chanFetch p.channelId ≠ .found ∨
      (env.chanFetch p.channelId = .found ∧
        env.msgFetch p.messageId ≠ .found)) :
    (endPoll env store p).computedAgg = none ∧
    (endPoll env store p).announced = [] ∧
    ((endPoll env store p).store = deleteOne store p.messageId ∨
      (endPoll env store p).store = store) := by
  rcases h with h | ⟨hc, hm⟩
  · cases hcf : env.chanFetch p.channelId with
    | found => exact absurd hcf h
    | missing => simp [endPoll, hcf]
    | raises => simp [endPoll, hcf]
  · cases hmf : env.msgFetch p.messageId with
    | found => exact absurd hmf hm
    | missing => simp [endPoll, hc, hmf]
    | raises => simp [endPoll, hc, hmf]

/-- Claim C2 witness: the amended theorem instantiated at a concrete
poll whose channel lookup resolves to nothing. -/
theorem c2_amended_witness :
    (endPoll ⟨fun _ => .missing, fun _ => .found, true⟩
      [⟨"m2", "c2", "g2", "B", 100, [("u", 5)]⟩]
      ⟨"m2", "c2", "g2", "B", 100, [("u", 5)]⟩).computedAgg = none :=
  (c2_amended ⟨"m2", "c2", "g2", "B", 100, [("u", 5)]⟩
    [⟨"m2", "c2", "g2", "B", 100, [("u", 5)]⟩]
    ⟨fun _ => .missing, fun _ => .found, true⟩ (Or.inl (by decide))).1

/-- Claim C4 counterexample: a vote interaction whose custom id decodes
to the out-of-scale value 7 is not rejected — the handler records 7 in
the votes map, although 7 is not in the fixed rating scale. -/
theorem c4_counterexample :
    handleVote [⟨"m4", "c4", "g4", "B", 100, []⟩] "m4" "bob" "poll_1_7" 50 =
      (.recorded 7, [⟨"m4", "c4", "g4", "B", 100, [("bob", 7)]⟩]) ∧
    (7 : Rat) ∉ pollOptions.map (fun o => o.value) := by
  decide

/-- Claim C4 (amended): the vote handler validates only the structure of
the custom id — it must start with `poll_` and split into exactly three
underscore-separated parts; the numeric value parsed from the third part
is stored without any check against the rating scale, so an out-of-set
value such as 7 is silently recorded. -/
theorem c4_amended (p : PollDoc) (u : String) (now : Nat)
    (hact : now < p.endTime) (hnew : lookupVote p.votes u = none) :
    handleVote [p] p.messageId u "poll_1_7" now =
      (.recorded 7, [{ p with votes := mapSet p.votes u 7 }]) ∧
    (7 : Rat) ∉ pollOptions.map (fun o => o.value) ∧
    handleVote [p] p.messageId u "rate_1_7" now = (.ignored, [p]) ∧
    handleVote [p] p.messageId u "poll_17" now = (.invalidFormat, [p]) := by
  have hle : ¬ (p.endTime ≤ now) := by omega
  have hstart : jsStartsWith "poll_1_7" "poll_" = true := by decide
  have hlen3 : ¬ ((jsSplit "poll_1_7" '_').length ≠ 3) := by decide
  have hdec : jsParseFloat ((jsSplit "poll_1_7" '_').getD 2 "") = some 7 := by
    decide
  have hstart2 : ¬ (jsStartsWith "rate_1_7" "poll_" = true) := by decide
  have hstart3 : jsStartsWith "poll_17" "poll_" = true := by decide
  have hlen2 : (jsSplit "poll_17" '_').length ≠ 3 := by decide
  refine ⟨?_, by decide, ?_, ?_⟩
  · have h1 : handleVote [p] p.messageId u "poll_1_7" now =
        castVoteCore [p] p.messageId u now
          (jsParseFloat ((jsSplit "poll_1_7" '_').getD 2 "")) := by
      unfold handleVote
      rw [if_pos hstart]
      exact if_neg hlen3
    rw [h1, hdec]
    simp [castVoteCore, findPoll, hle, hnew, savePoll]
  · unfold handleVote
    rw [if_neg hstart2]
  · unfold handleVote
    rw [if_pos hstart3]
    exact if_pos hlen2

/-- Claim C4 witness: the amended theorem instantiated at a concrete
active poll with no prior vote by the voter. -/
theorem c4_amended_witness :
    handleVote [⟨"m4", "c4", "g4", "B", 100, []⟩] "m4" "bob" "poll_1_7" 50 =
      (.recorded 7, [⟨"m4", "c4", "g4", "B", 100, [("bob", 7)]⟩]) :=
  (c4_amended ⟨"m4", "c4", "g4", "B", 100, []⟩ "bob" 50 (by decide) (by decide)).1

/-- Claim C5 (code-bug evaluation at the failing input): a poll stored
with expiry 200 and no votes, recovered at t = 100, is re-armed for
exactly the remaining 100 ms — carrying the document loaded at startup
as the timer callback's closure; a 5-star vote cast at t = 150 succeeds
and is persisted to the store; yet when the timer fires, `endPoll` runs
on the stale startup snapshot and announces the zero-vote aggregate
(no-votes sentinel), even though the store holds the vote.  An
already-expired poll is resolved immediately at recovery, as the claim
says. -/
theorem c5_stale_timer_snapshot :
    loadActivePolls 300 [⟨"m5", "c5", "g5", "B", 200, []⟩] =
      [.resolveNow ⟨"m5", "c5", "g5", "B", 200, []⟩] ∧
    loadActivePolls 100 [⟨"m5", "c5", "g5", "B", 200, []⟩] =
      [.armTimer 100 ⟨"m5", "c5", "g5", "B", 200, []⟩] ∧
    castVoteCore [⟨"m5", "c5", "g5", "B", 200, []⟩] "m5" "alice" 150 (some 5) =
      (.recorded 5, [⟨"m5", "c5", "g5", "B", 200, [("alice", 5)]⟩]) ∧
    (endPoll ⟨fun _ => .found, fun _ => .found, true⟩
        [⟨"m5", "c5", "g5", "B", 200, [("alice", 5)]⟩]
        ⟨"m5", "c5", "g5", "B", 200, []⟩).announced = [tallyVotes []] ∧
    (tallyVotes []).totalVotes = 0 ∧
    (tallyVotes []).average = none ∧
    findPoll [⟨"m5", "c5", "g5", "B", 200, [("alice", 5)]⟩] "m5" =
      some ⟨"m5", "c5", "g5", "B", 200, [("alice", 5)]⟩ := by
  decide

/-- Claim C7 counterexample: the input "2020/01/15" (no time argument)
matches no explicit format, `new Date` parses it to 15 January 2020,
and the pipeline accepts it: after the 19:00 default it returns that
past instant as a valid parse — the claim says a natural-language result
in the past is not accepted. -/
theorem c7_counterexample :
    parseMeetingDateTime none (some ⟨2020, 1, 15, 0, 0⟩) false true
      ⟨2026, 10, 11, 12, 0⟩ = some ⟨2020, 1, 15, 19, 0⟩ ∧
    dtLt ⟨2020, 1, 15, 19, 0⟩ ⟨2026, 10, 11, 12, 0⟩ = true := by
  decide

/-- Claim C7 (amended): the natural-language fallback result is accepted
whenever it is a valid parse, with no future-only condition; the only
past handling is the shared year-inference step — a past result with an
explicit 4-digit year in the input is returned unchanged (a valid past
timestamp), and one without an explicit year is rolled forward one
year. -/
theorem c7_amended :
    (∀ (d now : DT) (ht hy : Bool),
      (parseMeetingDateTime none (some d) ht hy now).isSome = true) ∧
    (∀ d now : DT, dtLt d now = true →
      parseMeetingDateTime none (some d) true true now = some d) ∧
    (∀ d now : DT, dtLt d now = true →
      parseMeetingDateTime none (some d) true false now =
        some ⟨d.year + 1, d.month, d.day, d.hour, d.minute⟩) := by
  refine ⟨?_, ?_, ?_⟩
  · intro d now ht hy
    simp only [parseMeetingDateTime]
    split <;> split <;> rfl
  · intro d now h
    simp [parseMeetingDateTime, h]
  · intro d now h
    simp [parseMeetingDateTime, h]

/-- Claim C7 witness: the amended theorem applied to a past instant, with
and without an explicit year in the input. -/
theorem c7_amended_witness :
    parseMeetingDateTime none (some ⟨2020, 1, 15, 10, 0⟩) true true
      ⟨2026, 1, 1, 0, 0⟩ = some ⟨2020, 1, 15, 10, 0⟩ ∧
    parseMeetingDateTime none (some ⟨2020, 1, 15, 10, 0⟩) true false
      ⟨2026, 1, 1, 0, 0⟩ = some ⟨2021, 1, 15, 10, 0⟩ := by
  constructor
  · exact c7_amended.2.1 ⟨2020, 1, 15, 10, 0⟩ ⟨2026, 1, 1, 0, 0⟩ (by decide)
  · exact c7_amended.2.2 ⟨2020, 1, 15, 10, 0⟩ ⟨2026, 1, 1, 0, 0⟩ (by decide)

/-- Claim C8: a month-name date with no time and no year (the
`MMMM d` format match yields midnight of that date in the current year)
is parsed to 19:00 target-timezone local time on that date in the
current year when the date lies in the future, and to the same date of
the next year when the date has already passed this year (the input
contains no explicit 4-digit year, so `hasYear` is false). -/
theorem c8_month_name_year_inference (m d0 : Nat) (nat0 : Option DT) (now : DT) :
    ((now.month < m ∨ (now.month = m ∧ now.day < d0)) →
      parseMeetingDateTime (some ⟨now.year, m, d0, 0, 0⟩) nat0 false false now =
        some ⟨now.year, m, d0, 19, 0⟩) ∧
    ((m < now.month ∨ (m = now.month ∧ d0 < now.day)) →
      parseMeetingDateTime (some ⟨now.year, m, d0, 0, 0⟩) nat0 false false now =
        some ⟨now.year + 1, m, d0, 19, 0⟩) := by
  constructor
  · intro h
    have hlt : dtLt ⟨now.year, m, d0, 19, 0⟩ now = false := by
      rcases h with h | ⟨h1, h2⟩ <;>
        (simp only [dtLt]; split_ifs <;> simp_all <;> omega)
    simp [parseMeetingDateTime, hlt]
  · intro h
    have hlt : dtLt ⟨now.year, m, d0, 19, 0⟩ now = true := by
      rcases h with h | ⟨h1, h2⟩ <;>
        (simp only [dtLt]; split_ifs <;> simp_all)
    simp [parseMeetingDateTime, hlt]

/-- Claim C8 witness: "December 15" parsed on 11 October 2026 yields
19:00 on 15 December 2026; "January 2" parsed the same day yields
19:00 on 2 January 2027. -/
theorem c8_month_name_year_inference_witness :
    parseMeetingDateTime (some ⟨2026, 12, 15, 0, 0⟩) none false false
      ⟨2026, 10, 11, 12, 30⟩ = some ⟨2026, 12, 15, 19, 0⟩ ∧
    parseMeetingDateTime (some ⟨2026, 1, 2, 0, 0⟩) none false false
      ⟨2026, 10, 11, 12, 30⟩ = some ⟨2027, 1, 2, 19, 0⟩ := by
  constructor
  · exact (c8_month_name_year_inference 12 15 none ⟨2026, 10, 11, 12, 30⟩).1
      (Or.inl (by decide))
  · exact (c8_month_name_year_inference 1 2 none ⟨2026, 10, 11, 12, 30⟩).2
      (Or.inl (by decide))

/-- Claim C10: a normally-completing `endPoll` run (channel and message
found, send succeeded) physically deletes the poll's document from the
store — there is no inactive historical record — so any later vote
interaction on that poll's message finds no poll, gets the
poll-no-longer-exists reply, and mutates nothing. -/
theorem c10_deleted_after_resolve (p : PollDoc) (store : List PollDoc)
    (env : DiscordEnv)
    (hc : env.chanFetch p.channelId = .found)
    (hm : env.msgFetch p.messageId = .found)
    (hs : env.sendOk = true)
    (huniq : countMsg store p.messageId ≤ 1) :
    findPoll (endPoll env store p).store p.messageId = none ∧
    (∀ u cid now, jsStartsWith cid "poll_" = true →
      (jsSplit cid '_').length = 3 →
      handleVote (endPoll env store p).store p.messageId u cid now =
        (.pollGone, (endPoll env store p).store)) := by
  have hst : (endPoll env store p).store = deleteOne store p.messageId := by
    simp [endPoll, hc, hm, hs]
  have hfp : findPoll (deleteOne store p.messageId) p.messageId = none :=
    findPoll_deleteOne store p.messageId huniq
  constructor
  · rw [hst]
    exact hfp
  · intro u cid now h1 h2
    rw [hst]
    simp [handleVote, h1, h2, castVoteCore, hfp]

/-- Claim C10 witness: the theorem instantiated at a concrete one-poll
store and an all-good environment. -/
theorem c10_deleted_after_resolve_witness :
    findPoll (endPoll ⟨fun _ => .found, fun _ => .found, true⟩
      [⟨"m1", "c1", "g1", "B", 100, []⟩]
      ⟨"m1", "c1", "g1", "B", 100, []⟩).store "m1" = none :=
  (c10_deleted_after_resolve ⟨"m1", "c1", "g1", "B", 100, []⟩
    [⟨"m1", "c1", "g1", "B", 100, []⟩]
    ⟨fun _ => .found, fun _ => .found, true⟩ rfl rfl rfl (by decide)).1

end BooqClub
